import Mathlib

/-
Verification of the agent orchestration core of the innomightlabs-api
repository against its natural-language specification.

The Lean definitions below are a shallow embedding of the Python source:

  * app/chatbot/chatbot_models.py              (AgentState, Action, Phase, ...)
  * app/common/utils.py                        (extract_tag_content)
  * app/chatbot/components/tools_manager/json_tools_manager.py
  * app/chatbot/workflows/helpers/krishna_advance_helpers.py
  * app/chatbot/workflows/krishna_advance.py   (run / stream sentinel)
  * app/chatbot/workflows/helpers/tools.py     (_manage_memory_overflow)
  * app/chatbot/workflows/memories/memory_manager.py (search_paginated)
  * app/chatbot/workflows/memories/memory_manager_v3.py (read)

Machine-level conventions: Python integers are Nat/Int; the float
divisions by AVERAGE_TOKEN_SIZE = 4 in the source are exact in binary
floating point for the magnitudes involved, so the comparisons are
embedded as exact integer comparisons scaled by 4.  Fallible code
returns Option/Except.  I/O (databases, logging, file writes) and the
identity fields (user, conversation id) are outside every claim and are
not modelled.
-/

set_option maxRecDepth 65536

namespace Krishna

/-- Message roles, mirroring app/common/models.py Role. -/
inductive Role where
  | user
  | assistant
  | system
deriving DecidableEq, Repr

/-- Streaming step tags, mirroring app/common/models.py StreamStep
(only the constructors the embedded code uses). -/
inductive StreamStep where
  | analysis
  | planning
  | draft
  | finalResponse
deriving DecidableEq, Repr

/-- Orchestrator phase, mirroring chatbot_models.py Phase. -/
inductive Phase where
  | needFinal
  | needTool
  | error
deriving DecidableEq, Repr

/-- One unit of streamed output, mirroring chatbot_models.py StreamChunk. -/
structure StreamChunk where
  content : String
  step : StreamStep
  stepTitle : String
deriving DecidableEq, Repr

/-- A single conversation message, mirroring chatbot_models.py
SingleMessage (the timestamp is outside every claim and dropped). -/
structure SingleMessage where
  message : String
  role : Role
deriving DecidableEq, Repr

/-- The result of one executed action, mirroring chatbot_models.py
ActionResult (timestamp dropped, as above). -/
structure ActionResult where
  thought : String
  action : String
  result : String
deriving DecidableEq, Repr

/-- A Python dict key as it can appear in action parameters: JSON
object keys are strings, but programmatically built parameter values
can carry integer dict keys, which json.dumps coerces to strings. -/
inductive PyKey where
  | kStr : String → PyKey
  | kInt : Int → PyKey
deriving DecidableEq, Repr

/-- A Python value in the JSON-serializable fragment used by action
parameters.  pyFloatRaw keeps the raw numeric literal of a JSON float;
no claim exercises float serialization, and the sorted serializer
rejects it (returns none) rather than model float repr. -/
inductive PyVal where
  | pyNull
  | pyBool : Bool → PyVal
  | pyInt : Int → PyVal
  | pyFloatRaw : String → PyVal
  | pyStr : String → PyVal
  | pyList : List PyVal → PyVal
  | pyDict : List (PyKey × PyVal) → PyVal

/-- An agent action, mirroring chatbot_models.py Action.  All fields
have pydantic defaults; params is a dict with string keys whose values
are arbitrary JSON-like Python values. -/
structure Action where
  name : String := ""
  description : String := ""
  params : List (String × PyVal) := []
  requestHeartbeat : Bool := false
  reasonForHeartbeat : String := ""

/-- A reasoning note paired with its chosen action, mirroring
chatbot_models.py AgentThought. -/
structure AgentThought where
  thought : String := ""
  action : Action

/-- The mutable turn state, mirroring chatbot_models.py AgentState.
Fields outside every claim (user, conversation id, user message, the
prompt text, memory blocks, file paths) are omitted; the conversation
list models the messages appended through the conversation manager and
the streamed list models the chunks put on the stream queue. -/
structure AgentState where
  epochs : Nat := 0
  phase : Phase := .needFinal
  thoughts : List AgentThought := []
  observations : List ActionResult := []
  llmResponse : String := ""
  retry : Nat := 0
  lastToolCall : Option (String × String) := none
  conversation : List SingleMessage := []
  streamed : List StreamChunk := []

/-- The state a fresh turn starts from: every field takes its pydantic
default; in particular phase defaults to NEED_FINAL. -/
def initialState : AgentState := {}

/-- Python str.strip whitespace test (the ASCII whitespace characters
the embedded strings can contain). -/
def isPyWs (c : Char) : Bool :=
  c = ' ' || c = '\t' || c = '\n' || c = '\r' || c.toNat = 11 || c.toNat = 12

/-- Python str.strip on both ends. -/
def pyStrip (s : String) : String :=
  String.mk (((s.data.dropWhile isPyWs).reverse.dropWhile isPyWs).reverse)

/-- Split a character list at the first occurrence of the pattern,
returning the text before it and the text after it. -/
def splitFirst (pat : List Char) : List Char → Option (List Char × List Char)
  | [] => if pat.isEmpty then some ([], []) else none
  | c :: rest =>
    if pat.isPrefixOf (c :: rest) then
      some ([], (c :: rest).drop pat.length)
    else
      match splitFirst pat rest with
      | none => none
      | some (before, after) => some (c :: before, after)

/-- Fuel-driven loop of extract_tag_content: repeatedly take the text
between the next opening tag and the nearest following closing tag,
exactly like the non-greedy DOTALL regex findall in
app/common/utils.py.  Fuel one larger than the text length always
suffices because every match consumes at least one character. -/
def extractLoop (openTag closeTag : List Char) : Nat → List Char → List (List Char)
  | 0, _ => []
  | fuel + 1, s =>
    match splitFirst openTag s with
    | none => []
    | some (_, afterOpen) =>
      match splitFirst closeTag afterOpen with
      | none => []
      | some (content, rest) => content :: extractLoop openTag closeTag fuel rest

/-- Embedding of app/common/utils.py extract_tag_content. -/
def extractTagContent (text tag : String) : List String :=
  let openTag := '<' :: (tag.data ++ ['>'])
  let closeTag := '<' :: '/' :: (tag.data ++ ['>'])
  (extractLoop openTag closeTag (text.data.length + 1) text.data).map String.mk

/-- JSON whitespace skipping, as in Python json.loads. -/
def skipWs (cs : List Char) : List Char :=
  cs.dropWhile (fun c => c = ' ' || c = '\t' || c = '\n' || c = '\r')

/-- Value of one hexadecimal digit. -/
def hexVal (c : Char) : Option Nat :=
  if '0' ≤ c && c ≤ '9' then some (c.toNat - 48)
  else if 'a' ≤ c && c ≤ 'f' then some (c.toNat - 87)
  else if 'A' ≤ c && c ≤ 'F' then some (c.toNat - 55)
  else none

/-- Parse exactly four hexadecimal digits. -/
def parseHex4 (cs : List Char) : Option (Nat × List Char) :=
  match cs with
  | c1 :: c2 :: c3 :: c4 :: rest =>
    match hexVal c1, hexVal c2, hexVal c3, hexVal c4 with
    | some h1, some h2, some h3, some h4 =>
      some (h1 * 4096 + h2 * 256 + h3 * 16 + h4, rest)
    | _, _, _, _ => none
  | _ => none

/-- Consume an exact literal. -/
def expectLit (lit cs : List Char) : Option (List Char) :=
  if lit.isPrefixOf cs then some (cs.drop lit.length) else none

/-- Parse the body of a JSON string after the opening quote, following
the strict decoder of Python json.loads: raw control characters are
rejected, the short escapes and \uXXXX are honored, and surrogate
pairs are combined.  A lone surrogate would produce a string Lean
characters cannot represent and is rejected; no claim exercises it. -/
def parseStrBody : Nat → List Char → Option (List Char × List Char)
  | 0, _ => none
  | _, [] => none
  | fuel + 1, c :: rest =>
    if c = '"' then some ([], rest)
    else if c = '\\' then
      match rest with
      | [] => none
      | e :: rest2 =>
        if e = 'u' then
          match parseHex4 rest2 with
          | none => none
          | some (n, rest3) =>
            if 55296 ≤ n && n < 56320 then
              match rest3 with
              | '\\' :: 'u' :: rest4 =>
                match parseHex4 rest4 with
                | none => none
                | some (m, rest5) =>
                  if 56320 ≤ m && m < 57344 then
                    match parseStrBody fuel rest5 with
                    | none => none
                    | some (body, rem) =>
                      some (Char.ofNat (65536 + (n - 55296) * 1024 + (m - 56320)) :: body, rem)
                  else none
              | _ => none
            else if 56320 ≤ n && n < 57344 then none
            else
              match parseStrBody fuel rest3 with
              | none => none
              | some (body, rem) => some (Char.ofNat n :: body, rem)
        else
          match
            (if e = '"' then some '"'
             else if e = '\\' then some '\\'
             else if e = '/' then some '/'
             else if e = 'b' then some (Char.ofNat 8)
             else if e = 'f' then some (Char.ofNat 12)
             else if e = 'n' then some '\n'
             else if e = 'r' then some '\r'
             else if e = 't' then some '\t'
             else none) with
          | none => none
          | some ec =>
            match parseStrBody fuel rest2 with
            | none => none
            | some (body, rem) => some (ec :: body, rem)
    else if c.toNat < 32 then none
    else
      match parseStrBody fuel rest with
      | none => none
      | some (body, rem) => some (c :: body, rem)

/-- Digits of a nonnegative decimal literal. -/
def takeDigits (cs : List Char) : List Char × List Char :=
  (cs.takeWhile Char.isDigit, cs.dropWhile Char.isDigit)

/-- Numeric value of a digit list. -/
def digitsToNat (ds : List Char) : Nat :=
  ds.foldl (fun acc c => acc * 10 + (c.toNat - 48)) 0

/-- Parse a JSON number as Python json.loads does: an integral literal
becomes an int, a literal with a fraction or exponent becomes a float
(kept as its raw text, see PyVal.pyFloatRaw).  Leading zeros are
rejected as in strict JSON. -/
def parseNum (cs : List Char) : Option (PyVal × List Char) :=
  let (neg, cs1) := match cs with
    | '-' :: rest => (true, rest)
    | _ => (false, cs)
  let (intDs, cs2) := takeDigits cs1
  if intDs.isEmpty then none
  else if intDs.length > 1 && intDs.headD '0' = '0' then none
  else
    let (fracDs, cs3) := match cs2 with
      | '.' :: rest =>
        let (ds, r) := takeDigits rest
        (ds, r)
      | _ => ([], cs2)
    if (match cs2 with | '.' :: _ => fracDs.isEmpty | _ => false) then none
    else
      let hasFrac := match cs2 with | '.' :: _ => true | _ => false
      let (hasExp, expChars, cs4) := match cs3 with
        | e :: rest =>
          if e = 'e' || e = 'E' then
            let (sgn, rest2) := match rest with
              | s :: r => if s = '+' || s = '-' then ([s], r) else ([], rest)
              | [] => ([], rest)
            let (ds, r) := takeDigits rest2
            if ds.isEmpty then (false, ([] : List Char), cs3)
            else (true, e :: (sgn ++ ds), r)
          else (false, [], cs3)
        | [] => (false, [], cs3)
      if hasFrac || hasExp then
        let raw := (if neg then ['-'] else []) ++ intDs ++
          (if hasFrac then '.' :: fracDs else []) ++ expChars
        some (.pyFloatRaw (String.mk raw), cs4)
      else
        let v : Int := Int.ofNat (digitsToNat intDs)
        some (.pyInt (if neg then -v else v), cs2)

/-- Python dict insertion semantics: a repeated key keeps its first
position and takes the last value. -/
def dictInsert (es : List (PyKey × PyVal)) (k : PyKey) (v : PyVal) :
    List (PyKey × PyVal) :=
  if es.any (fun e => e.1 = k) then
    es.map (fun e => if e.1 = k then (k, v) else e)
  else es ++ [(k, v)]

mutual

/-- Parse one JSON value (fuel-driven recursive descent mirroring
Python json.loads; Infinity, -Infinity and NaN are accepted as the
Python decoder does by default). -/
def parseVal : Nat → List Char → Option (PyVal × List Char)
  | 0, _ => none
  | fuel + 1, cs =>
    match skipWs cs with
    | [] => none
    | c :: rest =>
      if c = '"' then
        match parseStrBody (rest.length + 1) rest with
        | none => none
        | some (body, rem) => some (.pyStr (String.mk body), rem)
      else if c = '\x7b' then parseObj fuel [] rest true
      else if c = '[' then parseArr fuel [] rest true
      else if c = 't' then
        match expectLit ['r', 'u', 'e'] rest with
        | none => none
        | some rem => some (.pyBool true, rem)
      else if c = 'f' then
        match expectLit ['a', 'l', 's', 'e'] rest with
        | none => none
        | some rem => some (.pyBool false, rem)
      else if c = 'n' then
        match expectLit ['u', 'l', 'l'] rest with
        | none => none
        | some rem => some (.pyNull, rem)
      else if c = 'N' then
        match expectLit ['a', 'N'] rest with
        | none => none
        | some rem => some (.pyFloatRaw "NaN", rem)
      else if c = 'I' then
        match expectLit ['n', 'f', 'i', 'n', 'i', 't', 'y'] rest with
        | none => none
        | some rem => some (.pyFloatRaw "Infinity", rem)
      else if c = '-' then
        match rest with
        | 'I' :: rest2 =>
          match expectLit ['n', 'f', 'i', 'n', 'i', 't', 'y'] rest2 with
          | none => none
          | some rem => some (.pyFloatRaw "-Infinity", rem)
        | _ => parseNum (c :: rest)
      else if c.isDigit then parseNum (c :: rest)
      else none

/-- Parse the members of a JSON object after the opening brace,
accumulating with Python dict insertion semantics. -/
def parseObj : Nat → List (PyKey × PyVal) → List Char → Bool →
    Option (PyVal × List Char)
  | 0, _, _, _ => none
  | fuel + 1, acc, cs, isFirst =>
    match skipWs cs with
    | [] => none
    | c :: rest =>
      if c = '\x7d' && isFirst then some (.pyDict acc, rest)
      else
        let afterComma :=
          if isFirst then some (c :: rest)
          else if c = '\x7d' then none
          else if c = ',' then some rest
          else none
        match afterComma with
        | none =>
          if c = '\x7d' then some (.pyDict acc, rest) else none
        | some cs2 =>
          match skipWs cs2 with
          | '"' :: rest2 =>
            match parseStrBody (rest2.length + 1) rest2 with
            | none => none
            | some (keyBody, rest3) =>
              match skipWs rest3 with
              | ':' :: rest4 =>
                match parseVal fuel rest4 with
                | none => none
                | some (v, rest5) =>
                  parseObj fuel (dictInsert acc (.kStr (String.mk keyBody)) v) rest5 false
              | _ => none
          | _ => none

/-- Parse the elements of a JSON array after the opening bracket. -/
def parseArr : Nat → List PyVal → List Char → Bool →
    Option (PyVal × List Char)
  | 0, _, _, _ => none
  | fuel + 1, acc, cs, isFirst =>
    match skipWs cs with
    | [] => none
    | c :: rest =>
      if c = ']' && isFirst then some (.pyList acc.reverse, rest)
      else
        let afterComma :=
          if isFirst then some (c :: rest)
          else if c = ']' then none
          else if c = ',' then some rest
          else none
        match afterComma with
        | none =>
          if c = ']' then some (.pyList acc.reverse, rest) else none
        | some cs2 =>
          match parseVal fuel cs2 with
          | none => none
          | some (v, rest2) => parseArr fuel (v :: acc) rest2 false

end

/-- Embedding of Python json.loads on the full input: the parsed value
with only whitespace allowed to remain.  The fuel is generous enough
for any input that parses, since every recursive descent step consumes
input. -/
def loads (s : String) : Option PyVal :=
  match parseVal (s.data.length + 16) s.data with
  | none => none
  | some (v, rest) => if (skipWs rest).isEmpty then some v else none

/-- Lowercase hexadecimal digit. -/
def hexDigitChar (n : Nat) : Char :=
  "0123456789abcdef".data.getD n '0'

/-- Four lowercase hexadecimal digits, as in a JSON \uXXXX escape. -/
def hex4 (n : Nat) : List Char :=
  [hexDigitChar (n / 4096 % 16), hexDigitChar (n / 256 % 16),
   hexDigitChar (n / 16 % 16), hexDigitChar (n % 16)]

/-- Escape one character the way Python json.dumps does with the
default ensure_ascii=True: the short escapes, \uXXXX for other
characters outside the printable ASCII range, and surrogate pairs for
characters beyond the basic multilingual plane. -/
def escChar (c : Char) : List Char :=
  if c = '"' then ['\\', '"']
  else if c = '\\' then ['\\', '\\']
  else if c.toNat = 8 then ['\\', 'b']
  else if c.toNat = 9 then ['\\', 't']
  else if c.toNat = 10 then ['\\', 'n']
  else if c.toNat = 12 then ['\\', 'f']
  else if c.toNat = 13 then ['\\', 'r']
  else if c.toNat < 32 then '\\' :: 'u' :: hex4 c.toNat
  else if c.toNat < 127 then [c]
  else if c.toNat < 65536 then '\\' :: 'u' :: hex4 c.toNat
  else
    ('\\' :: 'u' :: hex4 (55296 + (c.toNat - 65536) / 1024)) ++
    ('\\' :: 'u' :: hex4 (56320 + (c.toNat - 65536) % 1024))

/-- JSON string escaping. -/
def escapeJson (s : String) : String :=
  String.mk (s.data.map escChar).flatten

/-- A JSON string literal. -/
def quoteJson (s : String) : String :=
  "\"" ++ escapeJson s ++ "\""

/-- The string form of a dict key: json.dumps coerces a non-string key
to its str() form before emitting it as a JSON object key. -/
def keyStr : PyKey → String
  | .kStr s => s
  | .kInt i => toString i

/-- The integer value of a key; meaningful only on all-integer-key
dicts, where Python sorted() compares the integers themselves. -/
def keyIntVal : PyKey → Int
  | .kInt i => i
  | .kStr _ => 0

/-- Test for a string key. -/
def isStrKey : PyKey → Bool
  | .kStr _ => true
  | .kInt _ => false

/-- Test for an integer key. -/
def isIntKey : PyKey → Bool
  | .kInt _ => true
  | .kStr _ => false

/-- Order on rendered dict entries with string keys (Python sorted()
compares the keys lexicographically by code point). -/
def entryLeStr (a b : PyKey × String) : Prop :=
  keyStr a.1 ≤ keyStr b.1

/-- Order on rendered dict entries with integer keys. -/
def entryLeInt (a b : PyKey × String) : Prop :=
  keyIntVal a.1 ≤ keyIntVal b.1

instance : DecidableRel entryLeStr :=
  fun a b => inferInstanceAs (Decidable (keyStr a.1 ≤ keyStr b.1))

instance : DecidableRel entryLeInt :=
  fun a b => inferInstanceAs (Decidable (keyIntVal a.1 ≤ keyIntVal b.1))

instance : IsTotal (PyKey × String) entryLeStr :=
  ⟨fun a b => le_total (keyStr a.1) (keyStr b.1)⟩

instance : IsTrans (PyKey × String) entryLeStr :=
  ⟨fun _ _ _ h1 h2 => le_trans h1 h2⟩

instance : IsTotal (PyKey × String) entryLeInt :=
  ⟨fun a b => le_total (keyIntVal a.1) (keyIntVal b.1)⟩

instance : IsTrans (PyKey × String) entryLeInt :=
  ⟨fun _ _ _ h1 h2 => le_trans h1 h2⟩

/-- Emit a JSON object from rendered entries with the default
json.dumps separators (COMMA-space between items, colon-space after a
key). -/
def wrapObj (es : List (PyKey × String)) : String :=
  "\x7b" ++
    String.intercalate ", " (es.map (fun e => quoteJson (keyStr e.1) ++ ": " ++ e.2)) ++
  "\x7d"

mutual

/-- Embedding of Python json.dumps(value, sort_keys=True) with default
separators: dict entries are sorted by key (string keys by code point,
integer keys numerically; a mix of the two makes sorted() raise
TypeError, rendered as none).  Floats are outside every claim and
return none. -/
def render : PyVal → Option String
  | .pyNull => some "null"
  | .pyBool b => some (if b then "true" else "false")
  | .pyInt i => some (toString i)
  | .pyFloatRaw _ => none
  | .pyStr s => some (quoteJson s)
  | .pyList xs =>
    match renderList xs with
    | none => none
    | some rs => some ("[" ++ String.intercalate ", " rs ++ "]")
  | .pyDict es =>
    match renderEntries es with
    | none => none
    | some res =>
      if res.all (fun e => isStrKey e.1) then
        some (wrapObj (List.insertionSort entryLeStr res))
      else if res.all (fun e => isIntKey e.1) then
        some (wrapObj (List.insertionSort entryLeInt res))
      else none

/-- Render each dict value in place, keeping its key. -/
def renderEntries : List (PyKey × PyVal) → Option (List (PyKey × String))
  | [] => some []
  | (k, v) :: rest =>
    match render v with
    | none => none
    | some rv =>
      match renderEntries rest with
      | none => none
      | some rs => some ((k, rv) :: rs)

/-- Render each list element. -/
def renderList : List PyVal → Option (List String)
  | [] => some []
  | v :: rest =>
    match render v with
    | none => none
    | some rv =>
      match renderList rest with
      | none => none
      | some rs => some (rv :: rs)

end

mutual

/-- Compact serialization in pydantic model_dump_json style: insertion
order preserved, no spaces after separators.  Only used to embed the
assistant-side transcript message of a heartbeat action; no claim
inspects its text. -/
def renderC : PyVal → String
  | .pyNull => "null"
  | .pyBool b => if b then "true" else "false"
  | .pyInt i => toString i
  | .pyFloatRaw raw => raw
  | .pyStr s => quoteJson s
  | .pyList xs => "[" ++ String.intercalate "," (renderCList xs) ++ "]"
  | .pyDict es => "\x7b" ++ String.intercalate "," (renderCEntries es) ++ "\x7d"

/-- Compact rendering of dict entries. -/
def renderCEntries : List (PyKey × PyVal) → List String
  | [] => []
  | (k, v) :: rest => (quoteJson (keyStr k) ++ ":" ++ renderC v) :: renderCEntries rest

/-- Compact rendering of list elements. -/
def renderCList : List PyVal → List String
  | [] => []
  | v :: rest => renderC v :: renderCList rest

end

/-- Action parameters as the Python dict value passed to json.dumps. -/
def paramsToPy (params : List (String × PyVal)) : PyVal :=
  .pyDict (params.map (fun kv => (PyKey.kStr kv.1, kv.2)))

/-- Embedding of json.dumps(action.params, sort_keys=True) from
execute_actions in krishna_advance_helpers.py. -/
def paramsDumps (params : List (String × PyVal)) : Option String :=
  render (paramsToPy params)

/-- MD5 round constants (RFC 1321). -/
def md5K : List Nat :=
  [0xd76aa478, 0xe8c7b756, 0x242070db, 0xc1bdceee,
   0xf57c0faf, 0x4787c62a, 0xa8304613, 0xfd469501,
   0x698098d8, 0x8b44f7af, 0xffff5bb1, 0x895cd7be,
   0x6b901122, 0xfd987193, 0xa679438e, 0x49b40821,
   0xf61e2562, 0xc040b340, 0x265e5a51, 0xe9b6c7aa,
   0xd62f105d, 0x02441453, 0xd8a1e681, 0xe7d3fbc8,
   0x21e1cde6, 0xc33707d6, 0xf4d50d87, 0x455a14ed,
   0xa9e3e905, 0xfcefa3f8, 0x676f02d9, 0x8d2a4c8a,
   0xfffa3942, 0x8771f681, 0x6d9d6122, 0xfde5380c,
   0xa4beea44, 0x4bdecfa9, 0xf6bb4b60, 0xbebfbc70,
   0x289b7ec6, 0xeaa127fa, 0xd4ef3085, 0x04881d05,
   0xd9d4d039, 0xe6db99e5, 0x1fa27cf8, 0xc4ac5665,
   0xf4292244, 0x432aff97, 0xab9423a7, 0xfc93a039,
   0x655b59c3, 0x8f0ccc92, 0xffeff47d, 0x85845dd1,
   0x6fa87e4f, 0xfe2ce6e0, 0xa3014314, 0x4e0811a1,
   0xf7537e82, 0xbd3af235, 0x2ad7d2bb, 0xeb86d391]

/-- MD5 per-round left-rotation amounts (RFC 1321). -/
def md5S : List Nat :=
  [7, 12, 17, 22, 7, 12, 17, 22, 7, 12, 17, 22, 7, 12, 17, 22,
   5, 9, 14, 20, 5, 9, 14, 20, 5, 9, 14, 20, 5, 9, 14, 20,
   4, 11, 16, 23, 4, 11, 16, 23, 4, 11, 16, 23, 4, 11, 16, 23,
   6, 10, 15, 21, 6, 10, 15, 21, 6, 10, 15, 21, 6, 10, 15, 21]

/-- Addition modulo 2^32. -/
def add32 (a b : Nat) : Nat := (a + b) % 4294967296

/-- Bitwise complement on 32-bit words (the argument is < 2^32). -/
def not32 (x : Nat) : Nat := 4294967295 - x

/-- Left rotation on 32-bit words (the argument is < 2^32). -/
def rotl32 (x n : Nat) : Nat :=
  (x * 2 ^ n + x / 2 ^ (32 - n)) % 4294967296

/-- The MD5 nonlinear function for round i. -/
def md5F (i b c d : Nat) : Nat :=
  if i < 16 then (b &&& c) ||| (not32 b &&& d)
  else if i < 32 then (d &&& b) ||| (not32 d &&& c)
  else if i < 48 then b ^^^ c ^^^ d
  else c ^^^ (b ||| not32 d)

/-- The MD5 message-word index for round i. -/
def md5G (i : Nat) : Nat :=
  if i < 16 then i
  else if i < 32 then (5 * i + 1) % 16
  else if i < 48 then (3 * i + 5) % 16
  else (7 * i) % 16

/-- A 32-bit little-endian word from four bytes. -/
def leWord (bs : List Nat) : Nat :=
  bs.getD 0 0 + 256 * bs.getD 1 0 + 65536 * bs.getD 2 0 + 16777216 * bs.getD 3 0

/-- The sixteen message words of one 64-byte chunk. -/
def chunkWords (chunk : List Nat) : List Nat :=
  (List.range 16).map (fun i => leWord ((chunk.drop (4 * i)).take 4))

/-- One MD5 round on the running (A, B, C, D) state. -/
def md5Round (m : List Nat) (st : Nat × Nat × Nat × Nat) (i : Nat) :
    Nat × Nat × Nat × Nat :=
  let (a, b, c, d) := st
  let f := add32 (add32 (add32 (md5F i b c d) a) (md5K.getD i 0)) (m.getD (md5G i) 0)
  (d, add32 b (rotl32 f (md5S.getD i 0)), b, c)

/-- Process one 64-byte chunk. -/
def md5Chunk (st0 : Nat × Nat × Nat × Nat) (chunk : List Nat) :
    Nat × Nat × Nat × Nat :=
  let m := chunkWords chunk
  let (a, b, c, d) := (List.range 64).foldl (md5Round m) st0
  let (a0, b0, c0, d0) := st0
  (add32 a0 a, add32 b0 b, add32 c0 c, add32 d0 d)

/-- Split a byte list into 64-byte chunks (fuel-driven; the fuel is
always sufficient at one more than the length). -/
def toChunks : Nat → List Nat → List (List Nat)
  | 0, _ => []
  | _, [] => []
  | fuel + 1, l => l.take 64 :: toChunks fuel (l.drop 64)

/-- UTF-8 bytes of one character. -/
def charUtf8 (c : Char) : List Nat :=
  let n := c.toNat
  if n < 128 then [n]
  else if n < 2048 then [192 + n / 64, 128 + n % 64]
  else if n < 65536 then [224 + n / 4096, 128 + n / 64 % 64, 128 + n % 64]
  else [240 + n / 262144, 128 + n / 4096 % 64, 128 + n / 64 % 64, 128 + n % 64]

/-- UTF-8 encoding of a string. -/
def utf8Bytes (s : String) : List Nat :=
  (s.data.map charUtf8).flatten

/-- MD5 padding: a 1 bit, zeros to 56 mod 64, then the bit length as a
64-bit little-endian quantity. -/
def md5Pad (bytes : List Nat) : List Nat :=
  let bitLen := 8 * bytes.length
  let padZeros := (119 - bytes.length % 64) % 64
  bytes ++ 128 :: List.replicate padZeros 0 ++
    (List.range 8).map (fun i => bitLen / 2 ^ (8 * i) % 256)

/-- Little-endian bytes of a 32-bit word. -/
def wordLEBytes (w : Nat) : List Nat :=
  [w % 256, w / 256 % 256, w / 65536 % 256, w / 16777216 % 256]

/-- Lowercase hexadecimal rendering of a byte list. -/
def bytesToHex (bs : List Nat) : String :=
  String.mk ((bs.map (fun b => [hexDigitChar (b / 16 % 16), hexDigitChar (b % 16)])).flatten)

/-- Embedding of hashlib.md5(s.encode()).hexdigest(): the full MD5
digest of the UTF-8 bytes of the string, in lowercase hex. -/
def md5Hex (s : String) : String :=
  let bytes := md5Pad (utf8Bytes s)
  let st := (toChunks (bytes.length + 1) bytes).foldl md5Chunk
    (0x67452301, 0xefcdab89, 0x98badcfe, 0x10325476)
  bytesToHex (wordLEBytes st.1 ++ wordLEBytes st.2.1 ++ wordLEBytes st.2.2.1 ++ wordLEBytes st.2.2.2)

/-- The duplicate-detection hash of execute_actions:
hashlib.md5(json.dumps(action.params, sort_keys=True).encode()).hexdigest().
none models the TypeError json.dumps raises on unsortable keys. -/
def paramsHashHex (params : List (String × PyVal)) : Option String :=
  (paramsDumps params).map md5Hex

/-- Pydantic v2 lax boolean validation for the request_heartbeat
field: booleans, 0/1 integers and the usual true/false strings are
accepted, anything else fails validation. -/
def pyToBool : PyVal → Option Bool
  | .pyBool b => some b
  | .pyInt 0 => some false
  | .pyInt 1 => some true
  | .pyStr s =>
    let l := s.toLower
    if l = "true" || l = "t" || l = "yes" || l = "y" || l = "on" || l = "1" then some true
    else if l = "false" || l = "f" || l = "no" || l = "n" || l = "off" || l = "0" then some false
    else none
  | _ => none

/-- A string-typed pydantic field with a default: absent means the
default, present requires an actual string. -/
def pyFieldStr (es : List (PyKey × PyVal)) (key dflt : String) : Option String :=
  match es.lookup (PyKey.kStr key) with
  | none => some dflt
  | some (.pyStr s) => some s
  | some _ => none

/-- Embedding of Action.model_validate on a parsed JSON value: the
payload must be an object, unknown fields are ignored, every field has
a default, name/description/reason_for_heartbeat must be strings when
present, params must be an object (its keys are strings, since it came
from JSON), request_heartbeat goes through lax boolean validation. -/
def jsonToAction (v : PyVal) : Option Action :=
  match v with
  | .pyDict es =>
    match pyFieldStr es "name" "" with
    | none => none
    | some name =>
      match pyFieldStr es "description" "" with
      | none => none
      | some description =>
        match
          (match es.lookup (PyKey.kStr "params") with
           | none => some ([] : List (String × PyVal))
           | some (.pyDict pes) =>
             if pes.all (fun e => isStrKey e.1) then
               some (pes.map (fun e => (keyStr e.1, e.2)))
             else none
           | some _ => none) with
        | none => none
        | some params =>
          match
            (match es.lookup (PyKey.kStr "request_heartbeat") with
             | none => some false
             | some b => pyToBool b) with
          | none => none
          | some heartbeat =>
            match pyFieldStr es "reason_for_heartbeat" "" with
            | none => none
            | some reason =>
              some { name := name, description := description, params := params,
                     requestHeartbeat := heartbeat, reasonForHeartbeat := reason }
  | _ => none

/-- Embedding of JsonToolsManager.parse_tool_calls: extract every
action block, strip it, parse it as JSON and validate it into an
Action; blocks that fail to parse or validate are logged and skipped,
never raised. -/
def parseToolCalls (responseText : String) : List Action :=
  (extractTagContent responseText "action").filterMap
    (fun block => (loads (pyStrip block)).bind jsonToAction)

/-- Compact pydantic model_dump_json of an Action, in field
declaration order. -/
def actionDumpJson (a : Action) : String :=
  "\x7b\"name\":" ++ quoteJson a.name ++
  ",\"description\":" ++ quoteJson a.description ++
  ",\"params\":" ++ renderC (paramsToPy a.params) ++
  ",\"request_heartbeat\":" ++ (if a.requestHeartbeat then "true" else "false") ++
  ",\"reason_for_heartbeat\":" ++ quoteJson a.reasonForHeartbeat ++ "\x7d"

/-- Embedding of KrishnaAdvanceWorkflowHelper.prompt_builder: the
prompt text itself is outside every claim (it is a json.dumps of
memory blocks and conversation history); the observable effect of the node
on the embedded state is the "Thinking..." chunk pushed on the stream
queue.  It does not touch phase, thoughts, retry or epochs. -/
def promptBuilder (s : AgentState) : AgentState :=
  { s with streamed := s.streamed ++
      [{ content := "Thinking...", step := .analysis, stepTitle := "Thinking..." }] }

/-- Embedding of KrishnaAdvanceWorkflowHelper.thinker: accumulate the
model response into llm_response (the streaming accumulation and the
single throttling retry do not change the accumulated value). -/
def thinker (response : String) (s : AgentState) : AgentState :=
  { s with llmResponse := response }

/-- Embedding of KrishnaAdvanceWorkflowHelper.parse_actions.  The
epoch counter is incremented, each inner_monologue block is stripped
and streamed, and every action parsed from every action block is
appended to state.thoughts paired with the monologue of the same index
(an empty thought when there are fewer monologues than blocks).

The try/except of the Python code cannot fire: extract_tag_content is
a total regex findall, the stream queue is unbounded, and
parse_tool_calls catches every exception internally, so the branch
that increments retry, appends the corrective system note and
re-raises ValueError is unreachable, and the embedding is total. -/
def parseActions (s : AgentState) : AgentState :=
  let s1 := { s with epochs := s.epochs + 1 }
  let plan := s1.llmResponse
  let monologues := (extractTagContent plan "inner_monologue").map pyStrip
  let monologueChunks : List StreamChunk := monologues.map
    (fun t => { content := t, step := .planning, stepTitle := "Reflecting..." })
  let s2 := { s1 with streamed := s1.streamed ++ monologueChunks }
  let blocks := extractTagContent plan "action"
  let newThoughts := (blocks.enum.map (fun ib =>
    (parseToolCalls ("<action>\n" ++ ib.2 ++ "\n</action>")).map
      (fun a => { thought := monologues.getD ib.1 "", action := a }))).flatten
  { s2 with thoughts := s2.thoughts ++ newThoughts }

/-- The behavior of the tools manager execute_tool call as the loop
sees it: it may read and mutate the state and either returns an
ActionResult or raises (Except.error carries str(e)). -/
def ExecEnv : Type :=
  AgentThought → AgentState → AgentState × Except String ActionResult

/-- Embedding of JsonToolsManager.execute_tool over a registry of
handlers: unknown names raise ValueError("Unknown tool: ..."), a
registered handler runs and its own exceptions are re-raised
unchanged. -/
def executeToolModel
    (registry : List (String × (AgentThought → AgentState → AgentState × Except String ActionResult))) :
    ExecEnv :=
  fun t s =>
    match registry.lookup t.action.name with
    | none => (s, .error ("Unknown tool: " ++ t.action.name))
    | some h => h t s

/-- Embedding of KrishnaAdvanceWorkflowHelper.execute_actions.  Every
branch of the Python while loop ends in break, so at most the first
pending thought is processed.  Before dispatch the (name, md5 of the
canonically serialized params) pair overwrites last_tool_call; the
hash is computed outside the try, so a json.dumps TypeError (none from
paramsHashHex) escapes the function, modelled as none.  On success the
result is appended to observations and the phase routed: send_message
clears observations, resets epochs and moves to NEED_FINAL; a
heartbeat action logs the action and its result into the conversation
and moves to NEED_TOOL; anything else moves to ERROR.  An exception
from the tool is caught, logged into the conversation as a user-role
message carrying the error text, and the phase is set to NEED_TOOL. -/
def executeActions (exec : ExecEnv) (s : AgentState) : Option AgentState :=
  match s.thoughts with
  | [] => some s
  | t :: rest =>
    let s1 := { s with thoughts := rest }
    match paramsHashHex t.action.params with
    | none => none
    | some h =>
      let s2 := { s1 with lastToolCall := some (t.action.name, h) }
      match exec t s2 with
      | (s3, .error e) =>
        some { s3 with
          phase := .needTool,
          conversation := s3.conversation ++
            [{ message := "Error executing action: " ++ e, role := .user }] }
      | (s3, .ok response) =>
        let s4 := { s3 with observations := s3.observations ++ [response] }
        if t.action.name = "send_message" then
          some { s4 with
            conversation := s4.conversation ++
              [{ message := response.result, role := .assistant }],
            phase := .needFinal,
            observations := [],
            epochs := 0 }
        else if t.action.requestHeartbeat then
          some { s4 with
            conversation := s4.conversation ++
              [{ message := actionDumpJson t.action, role := .assistant },
               { message := response.result, role := .user }],
            phase := .needTool }
        else
          some { s4 with phase := .error }

/-- Embedding of KrishnaAdvanceWorkflow._router: the conditional edge
out of execute_actions. -/
def router (s : AgentState) : String :=
  match s.phase with
  | .needTool => "prompt_builder"
  | .needFinal => "persist_message_exchange"
  | .error => "error_handler"

/-- The outcome of one turn of the compiled graph. -/
structure TurnRun where
  finalState : AgentState
  modelCalls : Nat
  endedVia : String

/-- The graph loop of KrishnaAdvanceWorkflow.run: prompt_builder →
thinker → parse_actions → execute_actions → router, looping back to
prompt_builder while the router says so, with the langgraph recursion
limit as fuel.  responses gives the model output of each invocation;
endedVia is the terminal node ("persist_message_exchange" or
"error_handler", both of which then reach END), "exception" when an
uncaught error aborts the graph, or "recursion_limit". -/
def turnLoop (exec : ExecEnv) (responses : Nat → String) :
    Nat → Nat → AgentState → TurnRun
  | 0, calls, s => ⟨s, calls, "recursion_limit"⟩
  | fuel + 1, calls, s =>
    let s1 := promptBuilder s
    let s2 := thinker (responses calls) s1
    let s3 := parseActions s2
    match executeActions exec s3 with
    | none => ⟨s3, calls + 1, "exception"⟩
    | some s4 =>
      if router s4 = "prompt_builder" then
        turnLoop exec responses fuel (calls + 1) s4
      else
        ⟨s4, calls + 1, router s4⟩

/-- One full turn with the recursion limit of 100 used by run(). -/
def runTurn (exec : ExecEnv) (responses : Nat → String) (s : AgentState) : TurnRun :=
  turnLoop exec responses 100 0 s

/-- An item on the stream queue of run(): a chunk, or the None
end-of-stream sentinel. -/
inductive QItem where
  | chunk : StreamChunk → QItem
  | sentinel
deriving DecidableEq, Repr

/-- The queue contents produced by drive_workflow in
KrishnaAdvanceWorkflow.run: the chunks the workflow body enqueued, and
then — in the finally block, whether or not the body raised — one None
sentinel. -/
def driveWorkflowQueue (produced : List StreamChunk) : List QItem :=
  produced.map .chunk ++ [.sentinel]

/-- The full sequence of items enqueued during one call of run().
When the workflow body raised, await task re-raises inside run(),
whose except handler enqueues a second None sentinel before
re-raising. -/
def runQueue (produced : List StreamChunk) (bodyRaises : Bool) : List QItem :=
  driveWorkflowQueue produced ++ (if bodyRaises then [QItem.sentinel] else [])

/-- The consumer loop of run(): drain the queue in order, yielding
chunks, until the first sentinel. -/
def consumeUntilSentinel : List QItem → List StreamChunk
  | [] => []
  | .sentinel :: _ => []
  | .chunk c :: rest => c :: consumeUntilSentinel rest

/-- How many times the sentinel was enqueued. -/
def sentinelCount (q : List QItem) : Nat :=
  q.count QItem.sentinel

/-- Memory types, mirroring app/common/models.py MemoryType. -/
inductive MemType where
  | persona
  | userProfile
  | recall
  | summary
  | archival
  | system
  | conversationHistory
deriving DecidableEq, Repr

/-- Per-type token budgets: CONTEXT_LENGTH is 8000 and each type gets
the fraction declared in MemoryType. -/
def tokenLimit : MemType → Nat
  | .persona => 400
  | .userProfile => 400
  | .recall => 1600
  | .summary => 400
  | .archival => 80
  | .system => 2400
  | .conversationHistory => 1600

/-- A stored memory entry as the overflow handler sees it (only id and
content size matter). -/
structure MemEntry where
  id : Nat
  content : String
deriving DecidableEq, Repr

/-- Characters of one entry. -/
def entryChars (e : MemEntry) : Nat := e.content.length

/-- Character total of a queue. -/
def sumChars (q : List MemEntry) : Nat := (q.map entryChars).sum

/-- Which in-state deque _manage_memory_overflow selects for a memory
type: the archival deque for the archival group, the recall deque for
recall, none (early return, no eviction) otherwise. -/
inductive DequeSel where
  | archivalQ
  | recallQ
deriving DecidableEq, Repr

/-- Embedding of the type dispatch at the top of
_manage_memory_overflow in workflows/helpers/tools.py. -/
def overflowDeque : MemType → Option DequeSel
  | .archival => some .archivalQ
  | .summary => some .archivalQ
  | .userProfile => some .archivalQ
  | .persona => some .archivalQ
  | .recall => some .recallQ
  | _ => none

/-- The two in-state memory deques. -/
structure MemQueues where
  archivalQ : List MemEntry := []
  recallQ : List MemEntry := []
deriving DecidableEq, Repr

/-- Read the selected deque. -/
def getDeque (st : MemQueues) : DequeSel → List MemEntry
  | .archivalQ => st.archivalQ
  | .recallQ => st.recallQ

/-- Write the selected deque. -/
def setDeque (st : MemQueues) : DequeSel → List MemEntry → MemQueues
  | .archivalQ, q => { st with archivalQ := q }
  | .recallQ, q => { st with recallQ := q }

/-- The eviction loop of _manage_memory_overflow: pop from the front
(oldest first) while the deque is nonempty and the tracked character
count exceeds the target, returning the remaining deque and the
evicted ids in eviction order. -/
def evictLoop : List MemEntry → Nat → Nat → List MemEntry × List Nat
  | [], _, _ => ([], [])
  | e :: rest, cc, target =>
    if cc > target then
      let r := evictLoop rest (cc - entryChars e) target
      (r.1, e.id :: r.2)
    else (e :: rest, [])

/-- Embedding of _manage_memory_overflow.  The character count of the
selected deque plus the new entry size is divided by
AVERAGE_TOKEN_SIZE = 4 and compared against the token limit; both
float divisions by 4 are exact, so the comparison is the exact integer
comparison scaled by 4.  When the write would exceed 100% of the
budget, the loop evicts oldest-first down to
target_chars = int(token_limit * 0.5 * 4) = 2 * token_limit.
Returns the updated queues and the batch of evicted ids. -/
def manageMemoryOverflow (st : MemQueues) (mt : MemType) (newEntrySize : Nat) :
    MemQueues × List Nat :=
  match overflowDeque mt with
  | none => (st, [])
  | some sel =>
    let q := getDeque st sel
    let currentChars := sumChars q
    if currentChars + newEntrySize > 4 * tokenLimit mt then
      let targetChars := 2 * tokenLimit mt
      let r := evictLoop q currentChars targetChars
      (setDeque st sel r.1, r.2)
    else (st, [])

/-- Paginated result shape, mirroring chatbot_models.py
PaginatedResult (results, page, total_pages, total_count,
page_size). -/
structure PageResult where
  results : List MemEntry
  page : Nat
  totalPages : Nat
  totalCount : Nat
  pageSize : Nat
deriving DecidableEq, Repr

/-- Embedding of MemoryManager.search_paginated: store is the list of
active entries of the user in the similarity order the query produces;
page_size is MEMORY_SEARCH_PAGE_SIZE = 10; total_pages is the ceiling
division (total_count + page_size - 1) // page_size; the page slice is
OFFSET (page-1)*page_size LIMIT page_size.  The function is intended
for 1-indexed pages (page 0 would produce a negative SQL offset). -/
def searchPaginated (store : List MemEntry) (page : Nat) : PageResult :=
  let pageSize := 10
  let offset := (page - 1) * pageSize
  let totalCount := store.length
  let totalPages := (totalCount + pageSize - 1) / pageSize
  { results := (store.drop offset).take pageSize,
    page := page,
    totalPages := totalPages,
    totalCount := totalCount,
    pageSize := pageSize }

/-- Approximate token count of MemoryManagerV3 (len // 4). -/
def tokenCount (s : String) : Nat := s.length / 4

/-- Embedding of MemoryManagerV3.read: pages is the list of stored
page-entries of (user, type) in the cosine-distance order of the
query; total_pages is their count; an empty store returns an ok empty
result, otherwise the query is OFFSET (page-1) LIMIT 1 and a missing
row raises ValueError("Page ... does not exist."). -/
def memoryV3Read (pages : List MemEntry) (page : Nat) :
    Except String PageResult :=
  let totalPages := pages.length
  if totalPages = 0 then
    .ok { results := [], page := page, totalPages := 0, totalCount := 0, pageSize := 100 }
  else
    match (pages.drop (page - 1)).head? with
    | none => .error ("Page " ++ toString page ++ " does not exist.")
    | some e =>
      .ok { results := [e], page := page, totalPages := totalPages,
            totalCount := tokenCount e.content, pageSize := 100 }

/-- Wrap a params entry as the dict entry json.dumps sees. -/
def wrapParam (kv : String × PyVal) : PyKey × PyVal :=
  (PyKey.kStr kv.1, kv.2)

/-- A send_message action as the model emits it. -/
def sendMessageAction : Action :=
  { name := "send_message", params := [("message", .pyStr "hi")] }

/-- The send_message thought used by the routing witness. -/
def tSend : AgentThought := { thought := "", action := sendMessageAction }

/-- A tool environment whose dispatch always succeeds with the
send_message acknowledgement. -/
def execOkSend : ExecEnv :=
  fun _ s => (s, .ok { thought := "", action := "send_message", result := "Message sent successfully!" })

/-- Turn state holding one pending send_message thought. -/
def stateC2 : AgentState := { initialState with thoughts := [tSend] }

/-- An action whose handler raises. -/
def boomAction : Action := { name := "boom_tool", requestHeartbeat := true }

/-- The failing thought used by the tool-error fixtures. -/
def tBoom : AgentThought := { thought := "", action := boomAction }

/-- A registered handler that raises ValueError("boom"). -/
def boomHandler : AgentThought → AgentState → AgentState × Except String ActionResult :=
  fun _ s => (s, .error "boom")

/-- The dispatcher with only the failing tool registered. -/
def execBoom : ExecEnv := executeToolModel [("boom_tool", boomHandler)]

/-- Turn state holding one pending failing thought. -/
def stateC4 : AgentState := { initialState with thoughts := [tBoom] }

/-- A repeatable heartbeat action with empty parameters. -/
def echoAction : Action := { name := "echo", requestHeartbeat := true }

/-- The echo thought used by the duplicate-detection fixtures. -/
def tEcho : AgentThought := { thought := "", action := echoAction }

/-- The result the echo tool returns. -/
def echoResult : ActionResult := { thought := "", action := "echo", result := "ran" }

/-- A tool environment that runs echo successfully. -/
def execEcho : ExecEnv := fun _ s => (s, .ok echoResult)

/-- Turn state in which last_tool_call already records exactly the
(name, md5 of canonical parameters) pair of the incoming echo action:
the incoming call is a duplicate. -/
def stateC8dup : AgentState :=
  { initialState with thoughts := [tEcho], lastToolCall := some ("echo", md5Hex "\x7b\x7d") }

/-- The same state with no recorded last tool call. -/
def stateC8fresh : AgentState := { initialState with thoughts := [tEcho] }

/-- Model responses that never contain an action block, so parsing
fails on every invocation. -/
def garbageResponses : Nat → String :=
  fun _ => "I could not settle on an action this time."

/-- A model response carrying one monologue and two well-formed action
blocks. -/
def twoActionResponse : String :=
  "<inner_monologue>plan</inner_monologue>\n<action>\n\x7b\"name\": \"send_message\", \"params\": \x7b\"message\": \"hi\"\x7d\x7d\n</action>\n<action>\n\x7b\"name\": \"python_code_runner\", \"request_heartbeat\": true, \"params\": \x7b\"code\": \"print(1)\"\x7d\x7d\n</action>"

/-- A model response with no action region at all. -/
def noActionResponse : String :=
  "Let me think aloud without emitting any action block."

/-- A nested dict value with an integer key. -/
def c9IntKeyVal : PyVal := .pyDict [(.kInt 1, .pyInt 0)]

/-- The same nested dict with the string form of that key. -/
def c9StrKeyVal : PyVal := .pyDict [(.kStr "1", .pyInt 0)]

/-- One stored entry for the pagination fixtures. -/
def c3Entry : MemEntry := { id := 1, content := "alpha" }

/-- One chunk for the event-bus fixtures. -/
def c5Chunk : StreamChunk :=
  { content := "hello", step := .finalResponse, stepTitle := "final" }

/-- A 100-character content string for the eviction fixtures. -/
def hundredChars : String := String.mk (List.replicate 100 'a')

/-- Three stored archival entries of 100 characters each. -/
def c6Queues : MemQueues :=
  { archivalQ := [{ id := 1, content := hundredChars },
                  { id := 2, content := hundredChars },
                  { id := 3, content := hundredChars }] }

/-- Rendering dict values keeps the keys in place. -/
theorem renderEntries_keys : ∀ {l : List (PyKey × PyVal)} {r : List (PyKey × String)},
    renderEntries l = some r → r.map Prod.fst = l.map Prod.fst := by
  intro l
  induction l with
  | nil =>
    intro r h
    simp [renderEntries] at h
    simp [← h]
  | cons e rest ih =>
    intro r h
    obtain ⟨k, v⟩ := e
    cases hrv : render v with
    | none => simp [renderEntries, hrv] at h
    | some rv =>
      cases hrest : renderEntries rest with
      | none => simp [renderEntries, hrv, hrest] at h
      | some rs =>
        simp [renderEntries, hrv, hrest] at h
        subst h
        simp [ih hrest]

/-- Rendering succeeds on a permutation of the entries and produces a
permutation of the rendered entries. -/
theorem renderEntries_perm : ∀ {l1 l2 : List (PyKey × PyVal)} {r1 : List (PyKey × String)},
    List.Perm l1 l2 → renderEntries l1 = some r1 →
    ∃ r2, renderEntries l2 = some r2 ∧ List.Perm r1 r2 := by
  intro l1 l2 r1 hp
  induction hp generalizing r1 with
  | nil =>
    intro h
    exact ⟨r1, h, List.Perm.refl r1⟩
  | cons x hp ih =>
    rename_i t1 t2
    intro h
    obtain ⟨k, v⟩ := x
    cases hrv : render v with
    | none => simp [renderEntries, hrv] at h
    | some rv =>
      cases hrest : renderEntries t1 with
      | none => simp [renderEntries, hrv, hrest] at h
      | some rs =>
        simp [renderEntries, hrv, hrest] at h
        obtain ⟨r2', hr2, hperm⟩ := ih hrest
        subst h
        exact ⟨(k, rv) :: r2', by simp [renderEntries, hrv, hr2], hperm.cons (k, rv)⟩
  | swap x y l =>
    intro h
    obtain ⟨kx, vx⟩ := x
    obtain ⟨ky, vy⟩ := y
    cases hry : render vy with
    | none => simp [renderEntries, hry] at h
    | some rvy =>
      cases hrx : render vx with
      | none => simp [renderEntries, hry, hrx] at h
      | some rvx =>
        cases hrest : renderEntries l with
        | none => simp [renderEntries, hry, hrx, hrest] at h
        | some rs =>
          simp [renderEntries, hry, hrx, hrest] at h
          subst h
          exact ⟨(kx, rvx) :: (ky, rvy) :: rs,
            by simp [renderEntries, hry, hrx, hrest],
            List.Perm.swap (kx, rvx) (ky, rvy) rs⟩
  | trans hp1 hp2 ih1 ih2 =>
    intro h
    obtain ⟨rm, hrm, hpm⟩ := ih1 h
    obtain ⟨r2, hr2, hp2'⟩ := ih2 hrm
    exact ⟨r2, hr2, hpm.trans hp2'⟩

/-- Two sorted entry lists that are permutations of each other are
equal when their key strings are pairwise distinct (the relation
orders entries by key string only, so antisymmetry comes from key
uniqueness). -/
theorem key_sorted_unique : ∀ (l1 l2 : List (PyKey × String)),
    List.Perm l1 l2 → List.Sorted entryLeStr l1 → List.Sorted entryLeStr l2 →
    (l1.map (fun e => keyStr e.1)).Nodup → l1 = l2 := by
  intro l1
  induction l1 with
  | nil =>
    intro l2 hp _ _ _
    exact hp.nil_eq
  | cons a t1 ih =>
    intro l2 hp hs1 hs2 hnd
    cases l2 with
    | nil => exact absurd hp.symm.nil_eq (by simp)
    | cons b t2 =>
      have hab : a = b := by
        have hbmem : b ∈ a :: t1 := hp.symm.subset (List.mem_cons_self b t2)
        rcases List.mem_cons.mp hbmem with hba | hbt1
        · exact hba.symm
        · have hamem : a ∈ b :: t2 := hp.subset (List.mem_cons_self a t1)
          have h1 : entryLeStr a b := (List.sorted_cons.mp hs1).1 b hbt1
          have h2 : entryLeStr b a := by
            rcases List.mem_cons.mp hamem with hab2 | hat2
            · rw [hab2]
              show keyStr b.1 ≤ keyStr b.1
              exact le_refl _
            · exact (List.sorted_cons.mp hs2).1 a hat2
          have hkey : keyStr a.1 = keyStr b.1 := le_antisymm h1 h2
          exfalso
          have hmem : keyStr a.1 ∈ t1.map (fun e => keyStr e.1) := by
            rw [hkey]
            exact List.mem_map_of_mem _ hbt1
          exact (List.nodup_cons.mp hnd).1 hmem
      subst hab
      have hp' : List.Perm t1 t2 := hp.cons_inv
      have hrec := ih t2 hp' hs1.of_cons hs2.of_cons (List.nodup_cons.mp hnd).2
      rw [hrec]

/-- The canonical serialization json.dumps(params, sort_keys=True) is
independent of the insertion order of a parameter map with distinct
keys. -/
theorem paramsDumps_perm (l1 l2 : List (String × PyVal))
    (hnd : (l1.map Prod.fst).Nodup) (hp : List.Perm l1 l2) :
    paramsDumps l1 = paramsDumps l2 := by
  have hpL : List.Perm (l1.map wrapParam) (l2.map wrapParam) := hp.map wrapParam
  show render (.pyDict (l1.map wrapParam)) = render (.pyDict (l2.map wrapParam))
  cases hre1 : renderEntries (l1.map wrapParam) with
  | none =>
    cases hre2 : renderEntries (l2.map wrapParam) with
    | none => simp [render, hre1, hre2]
    | some r2 =>
      obtain ⟨r1, hr1, _⟩ := renderEntries_perm hpL.symm hre2
      rw [hre1] at hr1
      cases hr1
  | some r1 =>
    obtain ⟨r2, hre2, hperm⟩ := renderEntries_perm hpL hre1
    have hk1 : r1.map Prod.fst = (l1.map wrapParam).map Prod.fst := renderEntries_keys hre1
    have hk2 : r2.map Prod.fst = (l2.map wrapParam).map Prod.fst := renderEntries_keys hre2
    have hall1 : r1.all (fun e => isStrKey e.1) = true := by
      rw [List.all_eq_true]
      intro e he
      have hmem : e.1 ∈ r1.map Prod.fst := List.mem_map_of_mem _ he
      rw [hk1] at hmem
      simp only [List.map_map, List.mem_map] at hmem
      obtain ⟨kv, _, hkv⟩ := hmem
      simp [← hkv, wrapParam, isStrKey]
    have hall2 : r2.all (fun e => isStrKey e.1) = true := by
      rw [List.all_eq_true]
      intro e he
      have he1 : e ∈ r1 := hperm.symm.subset he
      exact List.all_eq_true.mp hall1 e he1
    have hkeys1 : r1.map (fun e => keyStr e.1) = l1.map Prod.fst := by
      have : r1.map (fun e => keyStr e.1) = (r1.map Prod.fst).map keyStr := by
        simp [List.map_map]
      rw [this, hk1]
      simp [List.map_map, wrapParam, keyStr]
    have hsortEq :
        List.insertionSort entryLeStr r1 = List.insertionSort entryLeStr r2 := by
      apply key_sorted_unique
      · exact (List.perm_insertionSort entryLeStr r1).trans
          (hperm.trans (List.perm_insertionSort entryLeStr r2).symm)
      · exact List.sorted_insertionSort entryLeStr r1
      · exact List.sorted_insertionSort entryLeStr r2
      · have hndr : (r1.map (fun e => keyStr e.1)).Nodup := by
          rw [hkeys1]
          exact hnd
        have hpmap : List.Perm ((List.insertionSort entryLeStr r1).map (fun e => keyStr e.1))
            (r1.map (fun e => keyStr e.1)) :=
          (List.perm_insertionSort entryLeStr r1).map _
        exact hpmap.nodup_iff.mpr hndr
    simp [render, hre1, hre2, hall1, hall2, hsortEq]

/-- C9 (amended).  Two actions with the same name whose parameter maps
hold the same key/value entries (equal as maps: a permutation of one
another, keys distinct) produce equal duplicate-detection hashes
regardless of insertion order, because json.dumps(..., sort_keys=True)
canonicalizes the order.  The second half of the original claim fails:
parameter maps that differ in a value do not always hash differently,
because serialization can coincide — json.dumps coerces an integer
dict key to its string form, so the distinct values
\x7b1: 0\x7d and \x7b"1": 0\x7d serialize identically — so the amended claim
only asserts the order-independence direction together with the
existence of such a value-level collision. -/
theorem c9_hash_amended :
    (∀ (name : String) (l1 l2 : List (String × PyVal)),
      (l1.map Prod.fst).Nodup → List.Perm l1 l2 →
      (name, paramsHashHex l1) = (name, paramsHashHex l2)) ∧
    (c9IntKeyVal ≠ c9StrKeyVal ∧
     paramsHashHex [("a", c9IntKeyVal)] = paramsHashHex [("a", c9StrKeyVal)]) := by
  constructor
  · intro name l1 l2 hnd hp
    have := paramsDumps_perm l1 l2 hnd hp
    simp [paramsHashHex, this]
  · constructor
    · intro h
      simp [c9IntKeyVal, c9StrKeyVal] at h
    · have hdump : paramsDumps [("a", c9IntKeyVal)] = paramsDumps [("a", c9StrKeyVal)] := by
        decide
      simp [paramsHashHex, hdump]

/-- C9 counterexample.  The original claim demands that two actions
whose parameter maps differ in at least one parameter value hash
differently.  The maps \x7b"a": \x7b1: 0\x7d\x7d and \x7b"a": \x7b"1": 0\x7d\x7d differ in
the value bound to "a", yet json.dumps coerces the integer key 1 to
"1", both serialize to the same canonical string, and the md5 hashes
are therefore identical. -/
theorem c9_counterexample :
    c9IntKeyVal ≠ c9StrKeyVal ∧
    paramsHashHex [("a", c9IntKeyVal)] = paramsHashHex [("a", c9StrKeyVal)] := by
  constructor
  · intro h
    simp [c9IntKeyVal, c9StrKeyVal] at h
  · have hdump : paramsDumps [("a", c9IntKeyVal)] = paramsDumps [("a", c9StrKeyVal)] := by
      decide
    simp [paramsHashHex, hdump]

/-- C9 witness: the amended theorem applied to the two insertion
orders of the map \x7bb: 2, a: 1\x7d. -/
theorem c9_witness :
    ([("b", PyVal.pyInt 2), ("a", PyVal.pyInt 1)].map Prod.fst).Nodup ∧
    ("t", paramsHashHex [("b", PyVal.pyInt 2), ("a", PyVal.pyInt 1)]) =
      ("t", paramsHashHex [("a", PyVal.pyInt 1), ("b", PyVal.pyInt 2)]) := by
  constructor
  · decide
  · exact c9_hash_amended.1 "t" _ _ (by decide)
      (List.Perm.swap ("a", PyVal.pyInt 1) ("b", PyVal.pyInt 2) [])

/-- C2.  For an executed action whose dispatch returns a result: when
the name is the canonical send_message tool the phase becomes
NEED_FINAL and the observations list is cleared, and the router exits
through persist_message_exchange; otherwise a heartbeat request moves
the phase to NEED_TOOL and the router loops back to prompt_builder for
another iteration; otherwise the phase becomes ERROR and the router
exits through error_handler. -/
theorem c2_action_routing (exec : ExecEnv) (s : AgentState) (t : AgentThought)
    (rest : List AgentThought) (s3 : AgentState) (r : ActionResult) (ser : String)
    (hth : s.thoughts = t :: rest)
    (hser : paramsDumps t.action.params = some ser)
    (hexec : exec t { s with thoughts := rest, lastToolCall := some (t.action.name, md5Hex ser) } = (s3, .ok r)) :
    ∃ out, executeActions exec s = some out ∧
      (t.action.name = "send_message" →
        out.phase = .needFinal ∧ out.observations = [] ∧
        router out = "persist_message_exchange") ∧
      (t.action.name ≠ "send_message" → t.action.requestHeartbeat = true →
        out.phase = .needTool ∧ router out = "prompt_builder") ∧
      (t.action.name ≠ "send_message" → t.action.requestHeartbeat = false →
        out.phase = .error ∧ router out = "error_handler") := by
  have key : executeActions exec s =
      (if t.action.name = "send_message" then
        some { s3 with
          observations := [],
          conversation := s3.conversation ++
            [{ message := r.result, role := .assistant }],
          phase := .needFinal,
          epochs := 0 }
      else if t.action.requestHeartbeat then
        some { s3 with
          observations := s3.observations ++ [r],
          conversation := s3.conversation ++
            [{ message := actionDumpJson t.action, role := .assistant },
             { message := r.result, role := .user }],
          phase := .needTool }
      else
        some { s3 with
          observations := s3.observations ++ [r],
          phase := .error }) := by
    simp only [executeActions, hth, paramsHashHex, hser, Option.map_some']
    rw [hexec]
  by_cases hn : t.action.name = "send_message"
  · rw [key, if_pos hn]
    refine ⟨_, rfl, ?_, ?_, ?_⟩
    · intro _
      exact ⟨rfl, rfl, rfl⟩
    · intro hc _
      exact absurd hn hc
    · intro hc _
      exact absurd hn hc
  · by_cases hb : t.action.requestHeartbeat = true
    · rw [key, if_neg hn, if_pos hb]
      refine ⟨_, rfl, ?_, ?_, ?_⟩
      · intro hc
        exact absurd hc hn
      · intro _ _
        exact ⟨rfl, rfl⟩
      · intro _ hc
        rw [hb] at hc
        cases hc
    · rw [key, if_neg hn, if_neg hb]
      refine ⟨_, rfl, ?_, ?_, ?_⟩
      · intro hc
        exact absurd hc hn
      · intro _ hc
        exact absurd hc hb
      · intro _ _
        exact ⟨rfl, rfl⟩

/-- C2 witness: the routing theorem applied to a pending send_message
action with a dispatcher that returns the acknowledgement result. -/
theorem c2_witness :
    ∃ out, executeActions execOkSend stateC2 = some out ∧
      out.phase = .needFinal ∧ out.observations = [] ∧
      router out = "persist_message_exchange" := by
  obtain ⟨out, hrun, hsend, _, _⟩ :=
    c2_action_routing execOkSend stateC2 tSend [] _ _
      "\x7b\"message\": \"hi\"\x7d" rfl (by decide) rfl
  obtain ⟨h1, h2, h3⟩ := hsend rfl
  exact ⟨out, hrun, h1, h2, h3⟩

/-- C4 (amended).  An exception raised while executing a tool handler
is caught within the iteration and never re-raised: the loop stays
alive with phase NEED_TOOL (the router loops back to prompt_builder),
and the error text is appended to the conversation as a user-role
message.  Contrary to the original claim, no ActionResult observation
is created: the observations list is exactly what the tool left behind
(unchanged when the tool mutated nothing). -/
theorem c4_tool_error_amended (exec : ExecEnv) (s : AgentState) (t : AgentThought)
    (rest : List AgentThought) (s3 : AgentState) (e : String) (ser : String)
    (hth : s.thoughts = t :: rest)
    (hser : paramsDumps t.action.params = some ser)
    (hexec : exec t { s with thoughts := rest, lastToolCall := some (t.action.name, md5Hex ser) } = (s3, .error e)) :
    ∃ out, executeActions exec s = some out ∧
      out.phase = .needTool ∧
      router out = "prompt_builder" ∧
      out.observations = s3.observations ∧
      out.conversation = s3.conversation ++
        [{ message := "Error executing action: " ++ e, role := .user }] := by
  have key : executeActions exec s =
      some { s3 with
        phase := .needTool,
        conversation := s3.conversation ++
          [{ message := "Error executing action: " ++ e, role := .user }] } := by
    simp only [executeActions, hth, paramsHashHex, hser, Option.map_some']
    rw [hexec]
  exact ⟨_, key, rfl, rfl, rfl, rfl⟩

/-- C4 counterexample.  The claim says a handler exception is
converted into an ActionResult observation appended to the observation
list of the turn.  Running one failing tool from an empty observations
list leaves observations empty — no observation is created — while
the error text lands in the conversation as a user message and the
phase moves to NEED_TOOL. -/
theorem c4_counterexample :
    (executeActions execBoom stateC4).map (fun out => out.observations) = some [] ∧
    (executeActions execBoom stateC4).map (fun out => out.conversation) =
      some [{ message := "Error executing action: boom", role := .user }] ∧
    (executeActions execBoom stateC4).map (fun out => out.phase) = some .needTool := by
  refine ⟨rfl, rfl, rfl⟩

/-- C4 witness: the amended theorem applied to the failing boom tool
from the fixture state. -/
theorem c4_witness :
    ∃ out, executeActions execBoom stateC4 = some out ∧
      out.phase = .needTool ∧
      router out = "prompt_builder" ∧
      out.observations = stateC4.observations ∧
      out.conversation = stateC4.conversation ++
        [{ message := "Error executing action: boom", role := .user }] := by
  obtain ⟨out, hrun, h1, h2, h3, h4⟩ :=
    c4_tool_error_amended execBoom stateC4 tBoom [] _ "boom" "\x7b\x7d" rfl (by decide) rfl
  exact ⟨out, hrun, h1, h2, h3, h4⟩

/-- C8 (amended).  Before dispatch, execute_actions overwrites
last_tool_call with the (name, md5 of canonically serialized
parameters) pair of the incoming action and performs no comparison
with the previous value: for a nonempty action queue the entire
outcome of the step is independent of the previously recorded
last_tool_call, so a repeated call is executed exactly like a fresh
one and no repetition signal can be surfaced. -/
theorem c8_no_detection (exec : ExecEnv) (s : AgentState) (t : AgentThought)
    (rest : List AgentThought) (ser : String) (p q : Option (String × String))
    (hth : s.thoughts = t :: rest)
    (hser : paramsDumps t.action.params = some ser) :
    executeActions exec { s with lastToolCall := p } =
    executeActions exec { s with lastToolCall := q } := by
  simp only [executeActions, hth, paramsHashHex, hser, Option.map_some']

/-- C8 counterexample.  The claim says that when the
(name, parameter hash) pair of the incoming action equals the recorded lastToolCall, the
Orchestrator observably detects the repetition before dispatch and
surfaces it rather than re-executing silently.  With the echo action
pending and lastToolCall already holding exactly its (name, hash)
pair, the step produces a state identical to the one produced from a
state with no recorded call at all — there is no observable detection
— while the tool still executed (its result was appended to
observations) and lastToolCall was simply overwritten with the same
pair. -/
theorem c8_counterexample :
    executeActions execEcho stateC8dup = executeActions execEcho stateC8fresh ∧
    (executeActions execEcho stateC8dup).map (fun out => out.observations) =
      some [echoResult] ∧
    (executeActions execEcho stateC8dup).map (fun out => out.lastToolCall) =
      some (some ("echo", md5Hex "\x7b\x7d")) := by
  refine ⟨rfl, rfl, rfl⟩

/-- C8 witness: the amended theorem applied to the echo action with
the duplicate and the empty previous record. -/
theorem c8_witness :
    executeActions execEcho { stateC8fresh with lastToolCall := some ("echo", md5Hex "\x7b\x7d") } =
    executeActions execEcho { stateC8fresh with lastToolCall := none } := by
  exact c8_no_detection execEcho stateC8fresh tEcho [] "\x7b\x7d"
    (some ("echo", md5Hex "\x7b\x7d")) none rfl (by decide)

/-- C10.  When the queue of parsed pending actions is empty, the
action-execution step returns the state unchanged — phase,
observations, epoch count and lastToolCall included — no tool is
dispatched, and since the phase field is initialized to NEED_FINAL, a
turn whose model response yielded no extractable action is routed
straight to the finalize path. -/
theorem c10_empty_queue_frame (exec : ExecEnv) (s : AgentState)
    (h : s.thoughts = []) :
    executeActions exec s = some s ∧
    (s.phase = .needFinal → router s = "persist_message_exchange") ∧
    initialState.phase = .needFinal := by
  refine ⟨?_, ?_, rfl⟩
  · simp [executeActions, h]
  · intro hp
    simp [router, hp]

/-- C10 witness: the frame theorem applied to the initial state, which
has an empty action queue and the default NEED_FINAL phase. -/
theorem c10_witness :
    executeActions (executeToolModel []) initialState = some initialState ∧
    (initialState.phase = .needFinal → router initialState = "persist_message_exchange") ∧
    initialState.phase = .needFinal := by
  exact c10_empty_queue_frame (executeToolModel []) initialState rfl

/-- C5 (amended).  In a run whose workflow body completes normally the
end-of-stream sentinel is enqueued exactly once (by the finally
block); in a run whose body raises, the finally block enqueues it and
the except handler of run() enqueues it a second time, for exactly
two.  In every run at least one sentinel is enqueued and the consumer
drains the chunks in order up to the first sentinel. -/
theorem c5_sentinel_amended (produced : List StreamChunk) (bodyRaises : Bool) :
    sentinelCount (runQueue produced bodyRaises) = (if bodyRaises then 2 else 1) ∧
    1 ≤ sentinelCount (runQueue produced bodyRaises) ∧
    consumeUntilSentinel (runQueue produced bodyRaises) = produced := by
  have hcount : ∀ l : List StreamChunk, (l.map QItem.chunk).count QItem.sentinel = 0 := by
    intro l
    induction l with
    | nil => rfl
    | cons c rest ih => simp [List.count_cons, ih]
  have hconsume : ∀ (l : List StreamChunk) (tail : List QItem),
      consumeUntilSentinel (l.map QItem.chunk ++ QItem.sentinel :: tail) = l := by
    intro l tail
    induction l with
    | nil => rfl
    | cons c rest ih => simp [consumeUntilSentinel, ih]
  refine ⟨?_, ?_, ?_⟩
  · cases bodyRaises with
    | false =>
      simp [runQueue, driveWorkflowQueue, sentinelCount, List.count_append, hcount]
    | true =>
      simp [runQueue, driveWorkflowQueue, sentinelCount, List.count_append, hcount]
  · cases bodyRaises with
    | false =>
      simp [runQueue, driveWorkflowQueue, sentinelCount, List.count_append, hcount]
    | true =>
      simp [runQueue, driveWorkflowQueue, sentinelCount, List.count_append, hcount]
  · cases bodyRaises with
    | false =>
      simpa [runQueue, driveWorkflowQueue] using hconsume produced []
    | true =>
      simpa [runQueue, driveWorkflowQueue] using hconsume produced [QItem.sentinel]

/-- C5 counterexample.  The claim says the sentinel is enqueued
exactly once in every run, including runs where the loop exits via an
unexpected error.  In an error run both the finally block of
drive_workflow and the except handler of run() enqueue it: the
sentinel count is 2, not 1 (the consumer still stops at the first
one). -/
theorem c5_counterexample :
    sentinelCount (runQueue [c5Chunk] true) = 2 ∧
    ¬ sentinelCount (runQueue [c5Chunk] true) = 1 ∧
    consumeUntilSentinel (runQueue [c5Chunk] true) = [c5Chunk] := by
  refine ⟨rfl, by decide, rfl⟩

/-- The eviction loop pops a prefix (the oldest entries first), its id
list holds the ids of that prefix, and when the tracked count equals the true
character sum the remaining queue is within the target. -/
theorem evictLoop_spec : ∀ (q : List MemEntry) (target cc : Nat), cc = sumChars q →
    (∃ ev, q = ev ++ (evictLoop q cc target).1 ∧
      (evictLoop q cc target).2 = ev.map MemEntry.id) ∧
    sumChars (evictLoop q cc target).1 ≤ target := by
  intro q
  induction q with
  | nil =>
    intro target cc hcc
    refine ⟨⟨[], by simp [evictLoop], by simp [evictLoop]⟩, ?_⟩
    simp [evictLoop, sumChars]
  | cons e rest ih =>
    intro target cc hcc
    by_cases hgt : cc > target
    · have hcc' : cc - entryChars e = sumChars rest := by
        rw [hcc]
        simp [sumChars]
      obtain ⟨⟨ev, hsplit, hids⟩, hsum⟩ := ih target (cc - entryChars e) hcc'
      refine ⟨⟨e :: ev, ?_, ?_⟩, ?_⟩
      · simp [evictLoop, hgt]
        exact hsplit
      · simp [evictLoop, hgt]
        exact hids
      · simp [evictLoop, hgt]
        exact hsum
    · refine ⟨⟨[], by simp [evictLoop, hgt], by simp [evictLoop, hgt]⟩, ?_⟩
      simp [evictLoop, hgt]
      rw [← hcc]
      exact Nat.le_of_not_lt hgt

/-- C6.  For every write that triggers overflow handling (the selected
characters of the selected deque plus the new entry would exceed
100% of the token budget of the type, i.e. exceed 4 * tokenLimit characters at 4 characters
per token), the handler evicts strictly oldest-first — the evicted
entries are a prefix of the deque and the reported ids are their ids
in order — and afterwards the remaining usage is at most 50% of the
budget: at most 2 * tokenLimit characters, i.e. tokenLimit / 2
tokens. -/
theorem c6_eviction_invariant (st : MemQueues) (mt : MemType) (sel : DequeSel) (n : Nat)
    (hsel : overflowDeque mt = some sel)
    (htrig : sumChars (getDeque st sel) + n > 4 * tokenLimit mt) :
    ∃ ev, getDeque st sel = ev ++ getDeque (manageMemoryOverflow st mt n).1 sel ∧
      (manageMemoryOverflow st mt n).2 = ev.map MemEntry.id ∧
      sumChars (getDeque (manageMemoryOverflow st mt n).1 sel) ≤ 2 * tokenLimit mt := by
  have hget : ∀ (q : List MemEntry), getDeque (setDeque st sel q) sel = q := by
    intro q
    cases sel <;> rfl
  obtain ⟨⟨ev, hsplit, hids⟩, hsum⟩ :=
    evictLoop_spec (getDeque st sel) (2 * tokenLimit mt) (sumChars (getDeque st sel)) rfl
  refine ⟨ev, ?_, ?_, ?_⟩
  · simp only [manageMemoryOverflow, hsel, htrig, if_pos, hget]
    exact hsplit
  · simp only [manageMemoryOverflow, hsel, htrig, if_pos, hget]
    exact hids
  · simp only [manageMemoryOverflow, hsel, htrig, if_pos, hget]
    exact hsum

/-- C6 witness: three 100-character archival entries (300 characters
total) plus a 50-character write exceed the 320-character archival
budget; the two oldest entries are evicted and 100 characters remain,
within the 160-character half budget. -/
theorem c6_witness :
    overflowDeque MemType.archival = some DequeSel.archivalQ ∧
    sumChars (getDeque c6Queues DequeSel.archivalQ) + 50 > 4 * tokenLimit MemType.archival ∧
    ∃ ev, getDeque c6Queues DequeSel.archivalQ =
        ev ++ getDeque (manageMemoryOverflow c6Queues MemType.archival 50).1 DequeSel.archivalQ ∧
      (manageMemoryOverflow c6Queues MemType.archival 50).2 = ev.map MemEntry.id ∧
      sumChars (getDeque (manageMemoryOverflow c6Queues MemType.archival 50).1 DequeSel.archivalQ) ≤
        2 * tokenLimit MemType.archival := by
  refine ⟨rfl, by decide, ?_⟩
  exact c6_eviction_invariant c6Queues MemType.archival DequeSel.archivalQ 50 rfl (by decide)

/-- C3 (amended).  MemoryManager.search_paginated satisfies the
pagination contract: totalPages is the ceiling of n / 10 (the two
inequalities characterize it), pages are 1-indexed with page 1
returning the first slice, and any page beyond totalPages returns an
empty result, not an error.  MemoryManagerV3.read reports totalPages
equal to the number of stored page-entries, but for a page beyond
totalPages it returns an empty ok result only when the collection is
empty; on a nonempty collection it raises
ValueError("Page ... does not exist.") instead. -/
theorem c3_pagination_amended (store : List MemEntry) (page : Nat)
    (hp : 1 ≤ page) :
    (store.length ≤ 10 * (searchPaginated store page).totalPages ∧
     (searchPaginated store page).totalPages * 10 < store.length + 10 ∧
     (searchPaginated store 1).results = store.take 10 ∧
     (page > (searchPaginated store page).totalPages →
       (searchPaginated store page).results = [])) ∧
    (page > store.length →
      (store = [] → memoryV3Read store page =
        .ok { results := [], page := page, totalPages := 0, totalCount := 0, pageSize := 100 }) ∧
      (store ≠ [] → memoryV3Read store page =
        .error ("Page " ++ toString page ++ " does not exist."))) := by
  constructor
  · refine ⟨?_, ?_, ?_, ?_⟩
    · simp only [searchPaginated]
      omega
    · simp only [searchPaginated]
      omega
    · simp [searchPaginated]
    · intro hover
      simp only [searchPaginated] at hover ⊢
      have hoff : store.length ≤ (page - 1) * 10 := by
        have h1 : (store.length + 10 - 1) / 10 ≤ page - 1 := by omega
        have h2 : store.length ≤ ((store.length + 10 - 1) / 10) * 10 := by omega
        calc store.length ≤ ((store.length + 10 - 1) / 10) * 10 := h2
          _ ≤ (page - 1) * 10 := Nat.mul_le_mul_right 10 h1
      rw [List.drop_eq_nil_of_le hoff]
      simp
  · intro hover
    constructor
    · intro hempty
      subst hempty
      rfl
    · intro hne
      have hlen : 0 < store.length := List.length_pos.mpr hne
      have hdrop : store.drop (page - 1) = [] := by
        apply List.drop_eq_nil_of_le
        omega
      simp only [memoryV3Read, hdrop]
      rw [if_neg (by omega)]
      rfl

/-- C3 counterexample.  For a one-entry stored collection,
MemoryManagerV3.read of page 2 (one past totalPages = 1) raises
ValueError("Page 2 does not exist.") instead of returning the empty
result the claim requires. -/
theorem c3_counterexample :
    memoryV3Read [c3Entry] 2 = .error "Page 2 does not exist." ∧
    (searchPaginated [c3Entry] 2).results = [] ∧
    (searchPaginated [c3Entry] 2).totalPages = 1 := by
  refine ⟨rfl, rfl, rfl⟩

/-- C3 witness: the amended theorem applied to the one-entry store at
page 2. -/
theorem c3_witness :
    1 ≤ 2 ∧
    (([c3Entry] : List MemEntry).length ≤ 10 * (searchPaginated [c3Entry] 2).totalPages ∧
     (searchPaginated [c3Entry] 2).totalPages * 10 < ([c3Entry] : List MemEntry).length + 10 ∧
     (searchPaginated [c3Entry] 1).results = ([c3Entry] : List MemEntry).take 10 ∧
     (2 > (searchPaginated [c3Entry] 2).totalPages →
       (searchPaginated [c3Entry] 2).results = [])) ∧
    (2 > ([c3Entry] : List MemEntry).length →
      (([c3Entry] : List MemEntry) = [] → memoryV3Read [c3Entry] 2 =
        .ok { results := [], page := 2, totalPages := 0, totalCount := 0, pageSize := 100 }) ∧
      (([c3Entry] : List MemEntry) ≠ [] → memoryV3Read [c3Entry] 2 =
        .error ("Page " ++ toString 2 ++ " does not exist."))) := by
  refine ⟨by decide, ?_, ?_⟩
  · exact (c3_pagination_amended [c3Entry] 2 (by decide)).1
  · exact (c3_pagination_amended [c3Entry] 2 (by decide)).2

/-- One superstep of the graph loop. -/
theorem turnLoop_step (exec : ExecEnv) (responses : Nat → String)
    (fuel calls : Nat) (s : AgentState) :
    turnLoop exec responses (fuel + 1) calls s =
      (match executeActions exec (parseActions (thinker (responses calls) (promptBuilder s))) with
       | none => ⟨parseActions (thinker (responses calls) (promptBuilder s)), calls + 1, "exception"⟩
       | some s4 =>
         if router s4 = "prompt_builder" then turnLoop exec responses fuel (calls + 1) s4
         else ⟨s4, calls + 1, router s4⟩) := rfl

/-- C1 (amended).  When every model response yields no parseable
action, the turn invokes the model exactly once and terminates through
the persist/finalize route: the unparseable response produces zero
pending actions without raising, no corrective note is recorded (the
conversation stays empty and the retry counter stays 0), the phase
remains the NEED_FINAL default, and the router exits the loop — there
is no retry loop, no injected corrective note, and no canned fallback
in the code. -/
theorem c1_no_retry_amended (exec : ExecEnv) (responses : Nat → String)
    (h : ∀ n, extractTagContent (responses n) "action" = []) :
    (runTurn exec responses initialState).modelCalls = 1 ∧
    (runTurn exec responses initialState).endedVia = "persist_message_exchange" ∧
    (runTurn exec responses initialState).finalState.retry = 0 ∧
    (runTurn exec responses initialState).finalState.conversation = [] := by
  have hth : (parseActions (thinker (responses 0) (promptBuilder initialState))).thoughts = [] := by
    simp [parseActions, thinker, promptBuilder, initialState, h 0]
  have hph : (parseActions (thinker (responses 0) (promptBuilder initialState))).phase = .needFinal := by
    simp [parseActions, thinker, promptBuilder, initialState]
  have hexec : executeActions exec (parseActions (thinker (responses 0) (promptBuilder initialState))) =
      some (parseActions (thinker (responses 0) (promptBuilder initialState))) := by
    simp [executeActions, hth]
  have hrout : router (parseActions (thinker (responses 0) (promptBuilder initialState))) =
      "persist_message_exchange" := by
    simp [router, hph]
  have key : runTurn exec responses initialState =
      ⟨parseActions (thinker (responses 0) (promptBuilder initialState)), 1,
        "persist_message_exchange"⟩ := by
    unfold runTurn
    rw [show (100 : Nat) = 99 + 1 from rfl, turnLoop_step]
    simp only [hexec, hrout]
    simp
  rw [key]
  refine ⟨rfl, rfl, ?_, ?_⟩
  · simp [parseActions, thinker, promptBuilder, initialState]
  · simp [parseActions, thinker, promptBuilder, initialState]

/-- C1 counterexample.  Running the orchestrator on a model that never
emits an action block: parsing fails on every response, yet the model
is invoked exactly once, no corrective system note is injected (the
conversation is empty and retry stays 0), and no canned fallback
action is forced — the turn just exits through the persist route with
no pending actions.  The requirements of the claim — a corrective note
after each under-ceiling failure and a fallback finalization at the
ceiling (after 3 invocations) — do not hold. -/
theorem c1_counterexample :
    (runTurn (executeToolModel []) garbageResponses initialState).modelCalls = 1 ∧
    (runTurn (executeToolModel []) garbageResponses initialState).endedVia =
      "persist_message_exchange" ∧
    (runTurn (executeToolModel []) garbageResponses initialState).finalState.retry = 0 ∧
    (runTurn (executeToolModel []) garbageResponses initialState).finalState.conversation = [] ∧
    (runTurn (executeToolModel []) garbageResponses initialState).finalState.thoughts.length = 0 := by
  refine ⟨by decide, by decide, by decide, by decide, by decide⟩

/-- C1 witness: the amended theorem applied to the always-garbage
model responses. -/
theorem c1_witness :
    (runTurn (executeToolModel []) garbageResponses initialState).modelCalls = 1 ∧
    (runTurn (executeToolModel []) garbageResponses initialState).endedVia =
      "persist_message_exchange" ∧
    (runTurn (executeToolModel []) garbageResponses initialState).finalState.retry = 0 ∧
    (runTurn (executeToolModel []) garbageResponses initialState).finalState.conversation = [] := by
  have hg : extractTagContent "I could not settle on an action this time." "action" = [] := by
    decide
  exact c1_no_retry_amended (executeToolModel []) garbageResponses (fun _ => hg)

/-- C7 (amended).  The Response Parser produces zero or more (thought,
Action) pairs per response, never a parse error: the retry counter
(the failure signal of the code) is untouched on every input and the
epoch counter always advances; a response with two well-formed action
blocks contributes both actions in order — blocks beyond the first are
accepted, not rejected — and a response with zero action regions
yields zero pairs without any failure. -/
theorem c7_parser_amended :
    (∀ s : AgentState, (parseActions s).retry = s.retry ∧
      (parseActions s).epochs = s.epochs + 1) ∧
    (parseActions { initialState with llmResponse := twoActionResponse }).thoughts.map
      (fun th => th.action.name) = ["send_message", "python_code_runner"] ∧
    (parseActions { initialState with llmResponse := noActionResponse }).thoughts.map
      (fun th => th.action.name) = [] := by
  refine ⟨fun s => ⟨rfl, rfl⟩, by decide, by decide⟩

/-- C7 counterexample.  The claim says the parser yields zero-or-one
pair and that more than one detected action block is a parse error,
and that zero action regions is a parse failure.  A response with two
action blocks yields two accepted pairs (more than one, with the
failure counter untouched), and a response with zero action regions
yields zero pairs with no failure signal either. -/
theorem c7_counterexample :
    (parseActions { initialState with llmResponse := twoActionResponse }).thoughts.length = 2 ∧
    ¬ (parseActions { initialState with llmResponse := twoActionResponse }).thoughts.length ≤ 1 ∧
    (parseActions { initialState with llmResponse := twoActionResponse }).retry = 0 ∧
    (parseActions { initialState with llmResponse := noActionResponse }).thoughts.length = 0 ∧
    (parseActions { initialState with llmResponse := noActionResponse }).retry = 0 := by
  refine ⟨by decide, by decide, rfl, by decide, rfl⟩

end Krishna
